import Mathlib

/-
  Verification of the ball-simulation core of BrainrotBalls (src/main.cpp).

  Shallow embedding over exact real arithmetic (ℝ stands for the C++ `float`;
  all claims are read "up to floating tolerance", so the exact-real semantics is
  the intended model).  The random number generators (`std::mt19937` streams fed
  through `std::uniform_real_distribution`) are modelled as explicit streams
  `u : ℕ → ℝ` of unit draws in [0,1]; each distribution call maps the unit draw
  affinely onto its range, and draws are consumed in program order.  `std::atan2`
  followed by `cos`/`sin` is embedded through the exact identities
  cos (atan2 y x) = x / √(x²+y²) and sin (atan2 y x) = y / √(x²+y²) (for a
  nonzero vector; atan2 0 0 = 0 gives the (1,0) direction).  Division by zero in
  Lean yields 0 where C++ floats would produce ±inf/NaN; every claim that touches
  a division is stated together with the fact that its denominator is (or is not)
  zero, so no claim relies on the value of a division at a zero denominator.
  The unbounded rejection loop of `createRandomBall` is modelled with explicit
  fuel returning `Option Ball` (`none` = the loop has not yet accepted).
-/

open scoped Classical

noncomputable section

namespace BrainrotBalls

/-- The `Ball` struct of main.cpp (line 13): position, velocity, radius,
color and the per-ball momentum accumulator. -/
@[ext] structure Ball where
  x : ℝ
  y : ℝ
  dx : ℝ
  dy : ℝ
  radius : ℝ
  r : ℝ
  g : ℝ
  b : ℝ
  addedMomentum : ℝ

/-- A fixed fallback ball used as the default value of `List.getD`; it
satisfies the data-model invariant (radius 0.05, addedMomentum 1.05). -/
def defaultBall : Ball := ⟨0, 0, 0, 0, 0.05, 0, 0, 0, 1.05⟩

/-- `std::uniform_real_distribution(-1,1)` applied to a unit draw. -/
def dis (u : ℝ) : ℝ := -1 + 2 * u

/-- `std::uniform_real_distribution(-wallRadius+0.1, wallRadius-0.1)` applied
to a unit draw (createRandomBall, line 167). -/
def posMap (wallRadius u : ℝ) : ℝ :=
  (-wallRadius + 0.1) + u * ((wallRadius - 0.1) - (-wallRadius + 0.1))

/-- `std::uniform_real_distribution(-0.25, 0.25)` applied to a unit draw
(createRandomBall, line 168). -/
def velMap (u : ℝ) : ℝ := -0.25 + u * (0.25 - (-0.25))

/-- Gravity followed by position integration (updateBalls, lines 233-238):
`dy -= 1.4*adt; x += dx*adt; y += dy*adt` — the position update uses the
already-updated `dy`. -/
def gravityIntegrate (adt : ℝ) (ball : Ball) : Ball :=
  let dy2 := ball.dy - 1.4 * adt
  { ball with dy := dy2, x := ball.x + ball.dx * adt, y := ball.y + dy2 * adt }

/-- `std::sqrt(ball.x*ball.x + ball.y*ball.y)` (updateBalls, line 241). -/
def distanceFromCenter (ball : Ball) : ℝ := Real.sqrt (ball.x * ball.x + ball.y * ball.y)

/-- `std::sqrt(ball.dx*ball.dx + ball.dy*ball.dy)`, the speed of a ball
(updateBalls, lines 276 and 318). -/
def speed (ball : Ball) : ℝ := Real.sqrt (ball.dx * ball.dx + ball.dy * ball.dy)

/-- Clamping the colliding ball onto the wall (updateBalls, lines 248-250):
`angle = atan2(y,x); x = (wallRadius-radius)*cos(angle); y = (wallRadius-radius)*sin(angle)`,
embedded via cos (atan2 y x) = x/d, sin (atan2 y x) = y/d for d ≠ 0 and
atan2 0 0 = 0. -/
def clampedPos (wallRadius : ℝ) (ball : Ball) : ℝ × ℝ :=
  let d := distanceFromCenter ball
  if d = 0 then (wallRadius - ball.radius, 0)
  else ((wallRadius - ball.radius) * (ball.x / d), (wallRadius - ball.radius) * (ball.y / d))

/-- The "normal" used by the collision response (updateBalls, lines 253-254):
`nx = ball.x / distanceFromCenter` computed AFTER `ball.x`/`ball.y` have been
overwritten by the clamp, while `distanceFromCenter` still holds the pre-clamp
distance. -/
def collisionNormal (wallRadius : ℝ) (ball : Ball) : ℝ × ℝ :=
  let d := distanceFromCenter ball
  let p := clampedPos wallRadius ball
  (p.1 / d, p.2 / d)

/-- Reflection of velocity `v` about `n` (updateBalls, lines 257-261):
`v - 2*(v·n)*n`. -/
def reflectVel (n v : ℝ × ℝ) : ℝ × ℝ :=
  let dotProduct := v.1 * n.1 + v.2 * n.2
  (v.1 - 2 * dotProduct * n.1, v.2 - 2 * dotProduct * n.2)

/-- The blended post-collision velocity before renormalization
(updateBalls, lines 263-273): reflection combined with the center-directed
vector `(-ball.x/d, -ball.y/d)` (CENTER_BIAS = 0.5) and the random term
`dis(gen) * RANDOM_FACTOR` (RANDOM_FACTOR = 0.4), where `u1`, `u2` are the
two unit draws consumed by this collision. -/
def blendedVel (wallRadius u1 u2 : ℝ) (ball : Ball) : ℝ × ℝ :=
  let d := distanceFromCenter ball
  let p := clampedPos wallRadius ball
  let n := collisionNormal wallRadius ball
  let rv := reflectVel n (ball.dx, ball.dy)
  let centerX := -p.1 / d
  let centerY := -p.2 / d
  let randX := dis u1 * 0.4
  let randY := dis u2 * 0.4
  (rv.1 * (1 - 0.5) + centerX * 0.5 + randX, rv.2 * (1 - 0.5) + centerY * 0.5 + randY)

/-- The renormalization denominator `speed` of updateBalls line 276. -/
def blendedSpeed (wallRadius u1 u2 : ℝ) (ball : Ball) : ℝ :=
  let v := blendedVel wallRadius u1 u2 ball
  Real.sqrt (v.1 * v.1 + v.2 * v.2)

/-- The whole collision branch of updateBalls (lines 242-286) applied to the
post-integration ball: clamp position, reflect/blend/renormalize velocity,
bump `addedMomentum` (MOMENTUM_INCREMENT = 0.05, MAX_ADDED_MOMENTUM = 5.0) and
scale the unit velocity by `1.05 + addedMomentum`. -/
def collide (wallRadius u1 u2 : ℝ) (ball : Ball) : Ball :=
  let p := clampedPos wallRadius ball
  let v := blendedVel wallRadius u1 u2 ball
  let s := blendedSpeed wallRadius u1 u2 ball
  let am := min (ball.addedMomentum + 0.05) 5.0
  let totalMomentum := 1.05 + am
  { ball with
    x := p.1, y := p.2,
    dx := v.1 / s * totalMomentum,
    dy := v.2 / s * totalMomentum,
    addedMomentum := am }

/-- One ball's physics for one frame (updateBalls, lines 233-286): gravity and
integration, then the collision branch when `distance + radius > wallRadius`.
`u1`, `u2` are the unit draws this ball would consume on collision. -/
def processBall (wallRadius adt u1 u2 : ℝ) (ball : Ball) : Ball :=
  let b1 := gravityIntegrate adt ball
  if distanceFromCenter b1 + b1.radius > wallRadius then collide wallRadius u1 u2 b1 else b1

/-- First color band of updateBalls (lines 299-303), `t < 0.33`. -/
def band1 (t : ℝ) : ℝ × ℝ × ℝ := (1, t * 3, 0)

/-- Second color band of updateBalls (lines 304-308), `0.33 ≤ t < 0.66`. -/
def band2 (t : ℝ) : ℝ × ℝ × ℝ := (1 - (t - 0.33) * 3, 1, (t - 0.33) * 3)

/-- Third color band of updateBalls (lines 309-313), `t ≥ 0.66`. -/
def band3 (t : ℝ) : ℝ × ℝ × ℝ := ((t - 0.66) * 3, 1 - (t - 0.66) * 3, 1)

/-- The three-band rainbow gradient as a function of
`t = distanceFromCenter / wallRadius` (updateBalls, lines 296-313). -/
def colorOf (t : ℝ) : ℝ × ℝ × ℝ :=
  if t < 0.33 then band1 t else if t < 0.66 then band2 t else band3 t

/-- Recompute one ball's color from its current position (the body of the inner
loop of updateBalls, lines 294-314). -/
def colorFor (wallRadius : ℝ) (ball : Ball) : Ball :=
  let normalizedDistance := distanceFromCenter ball / wallRadius
  let c := colorOf normalizedDistance
  { ball with r := c.1, g := c.2.1, b := c.2.2 }

/-- The speed clamp of updateBalls (lines 316-322): if the current speed
exceeds 2.5, rescale the velocity to magnitude 2.5. -/
def speedClamp (ball : Ball) : Ball :=
  let currentSpeed := speed ball
  if currentSpeed > 2.5 then
    { ball with dx := ball.dx / currentSpeed * 2.5, dy := ball.dy / currentSpeed * 2.5 }
  else ball

/-- createDuplicateBall of main.cpp (lines 186-192): copy of the original with
velocity scaled by `momentumReduction` and `addedMomentum` reset to 1.05. -/
def createDuplicateBall (original : Ball) (momentumReduction : ℝ) : Ball :=
  { original with
    dx := original.dx * momentumReduction,
    dy := original.dy * momentumReduction,
    addedMomentum := 1.05 }

/-- createRandomBall of main.cpp (lines 164-184): radius 0.05, position drawn
per coordinate from [-wallRadius+0.1, wallRadius-0.1] and rejection-sampled
until `√(x²+y²) ≤ wallRadius - 0.05`, then velocity components drawn from
[-0.25, 0.25] and `addedMomentum = 1.05`.  `u` is the unit-draw stream of the
generator, `k` the index of the next unconsumed draw, and the fuel bounds the
number of rejection iterations (`none` models non-termination of the
do-while loop).  The C++ code leaves the color fields uninitialized (they are
overwritten by updateBalls before rendering); the model sets them to 0. -/
def createRandomBall (wallRadius : ℝ) (u : ℕ → ℝ) : ℕ → ℕ → Option Ball
  | 0, _ => none
  | fuel + 1, k =>
    let bx := posMap wallRadius (u k)
    let by2 := posMap wallRadius (u (k + 1))
    if Real.sqrt (bx * bx + by2 * by2) > wallRadius - 0.05 then
      createRandomBall wallRadius u fuel (k + 2)
    else
      some ⟨bx, by2, velMap (u (k + 2)), velMap (u (k + 3)), 0.05, 0, 0, 0, 1.05⟩

/-- processInput of main.cpp (lines 194-212), restricted to its simulation
content (the GLFW escape-key/window handling is renderer glue): on the
edge-triggered space press, append `createRandomBall wallRadius` to the
population — with no population-cap check.  Returns the new ball list and the
new `spacePressed` latch; `none` models a non-terminating rejection loop inside
createRandomBall. -/
def processInput (spaceDown spacePressed : Bool) (balls : List Ball) (wallRadius : ℝ)
    (u : ℕ → ℝ) (fuel : ℕ) : Option (List Ball × Bool) :=
  if spaceDown then
    if spacePressed then some (balls, true)
    else (createRandomBall wallRadius u fuel 0).map (fun newBall => (balls ++ [newBall], true))
  else some (balls, false)

/-- The body of updateBalls' outer loop (lines 230-323), iterated by index.
State: current ball vector, next random-draw index `k`, queued `newBalls`, and
the number of sound-hook invocations so far.  Each iteration updates ball `i`
(gravity, integration, collision branch — playing the sound, consuming two
draws and queueing a capped duplicate on collision), then re-runs the inner
color loop over the WHOLE vector (lines 294-314 sit inside the outer loop),
then applies the speed clamp to ball `i`.  The fuel is instantiated with the
(loop-invariant) vector size by `updateBalls`. -/
def updateIter (wallRadius adt : ℝ) (u : ℕ → ℝ) :
    ℕ → ℕ → List Ball → ℕ → List Ball → ℕ → List Ball × List Ball × ℕ
  | 0, _, balls, _, newBalls, sounds => (balls, newBalls, sounds)
  | fuel + 1, i, balls, k, newBalls, sounds =>
    if h : i < balls.length then
      let ball := balls.get ⟨i, h⟩
      let b1 := gravityIntegrate adt ball
      if distanceFromCenter b1 + b1.radius > wallRadius then
        let b2 := collide wallRadius (u k) (u (k + 1)) b1
        let newBalls2 :=
          if balls.length + newBalls.length < 10000 then
            newBalls ++ [createDuplicateBall b2 0.95]
          else newBalls
        let balls4 := ((balls.set i b2).map (colorFor wallRadius)).set i
          (speedClamp (colorFor wallRadius b2))
        updateIter wallRadius adt u fuel (i + 1) balls4 (k + 2) newBalls2 (sounds + 1)
      else
        let balls4 := ((balls.set i b1).map (colorFor wallRadius)).set i
          (speedClamp (colorFor wallRadius b1))
        updateIter wallRadius adt u fuel (i + 1) balls4 k newBalls sounds
    else (balls, newBalls, sounds)

/-- updateBalls of main.cpp (lines 214-327): scale `deltaTime` by
SIMULATION_SPEED = 0.5, run the per-ball loop, then append the queued
duplicates (line 326).  Returns the new population together with the number of
collision-sound invocations (`soundPlayer.play()` calls) of this step. -/
def updateBalls (balls : List Ball) (wallRadius deltaTime : ℝ) (u : ℕ → ℝ) :
    List Ball × ℕ :=
  let adjustedDeltaTime := deltaTime * 0.5
  let res := updateIter wallRadius adjustedDeltaTime u balls.length 0 balls 0 [] 0
  (res.1 ++ res.2.1, res.2.2)

/-- Specification-side closed form for the processed originals: ball `i` of the
output is `speedClamp (colorFor (processBall …))` of input ball `i`; the tail is
recolored once per outer iteration (the inner color loop touches not-yet-updated
balls too), which only rewrites color fields. -/
def processedList (wallRadius adt : ℝ) (u : ℕ → ℝ) : List Ball → ℕ → List Ball
  | [], _ => []
  | ball :: rest, k =>
    speedClamp (colorFor wallRadius (processBall wallRadius adt (u k) (u (k + 1)) ball)) ::
      processedList wallRadius adt u (rest.map (colorFor wallRadius))
        (if distanceFromCenter (gravityIntegrate adt ball) +
            (gravityIntegrate adt ball).radius > wallRadius then k + 2 else k)
termination_by l _ => l.length
decreasing_by simp only [List.length_map, List.length_cons]; omega

/-- Specification-side closed form for the duplicates queued in one pass over
the input list: each colliding ball queues exactly one duplicate — a copy of
its post-collision state with velocity scaled by 0.95 and `addedMomentum` reset
to 1.05 — provided the existing population `n` plus the `cnt` duplicates already
queued is below the cap of 10000.  Two random draws are consumed per collision
whether or not the duplicate is admitted. -/
def dupsList (wallRadius adt : ℝ) (u : ℕ → ℝ) (n : ℕ) : List Ball → ℕ → ℕ → List Ball
  | [], _, _ => []
  | ball :: rest, k, cnt =>
    if distanceFromCenter (gravityIntegrate adt ball) +
        (gravityIntegrate adt ball).radius > wallRadius then
      if n + cnt < 10000 then
        createDuplicateBall (processBall wallRadius adt (u k) (u (k + 1)) ball) 0.95 ::
          dupsList wallRadius adt u n (rest.map (colorFor wallRadius)) (k + 2) (cnt + 1)
      else dupsList wallRadius adt u n (rest.map (colorFor wallRadius)) (k + 2) cnt
    else dupsList wallRadius adt u n (rest.map (colorFor wallRadius)) k cnt
termination_by l _ _ => l.length
decreasing_by
  all_goals simp only [List.length_map, List.length_cons]; omega

/-- Number of balls of the input list whose post-integration position triggers
the wall-collision test — one collision-sound invocation each. -/
def numCollisions (wallRadius adt : ℝ) : List Ball → ℕ
  | [] => 0
  | ball :: rest =>
    let b1 := gravityIntegrate adt ball
    (if distanceFromCenter b1 + b1.radius > wallRadius then 1 else 0) +
      numCollisions wallRadius adt rest

/-- The data-model invariant of the spec: fixed radius 0.05 and
`addedMomentum ∈ [1.05, 5.0]`. -/
def ballInv (ball : Ball) : Prop :=
  ball.radius = 0.05 ∧ 1.05 ≤ ball.addedMomentum ∧ ball.addedMomentum ≤ 5.0

/-! ### Field-preservation lemmas -/

@[simp] lemma colorFor_x (wr : ℝ) (ball : Ball) : (colorFor wr ball).x = ball.x := rfl
@[simp] lemma colorFor_y (wr : ℝ) (ball : Ball) : (colorFor wr ball).y = ball.y := rfl
@[simp] lemma colorFor_dx (wr : ℝ) (ball : Ball) : (colorFor wr ball).dx = ball.dx := rfl
@[simp] lemma colorFor_dy (wr : ℝ) (ball : Ball) : (colorFor wr ball).dy = ball.dy := rfl
@[simp] lemma colorFor_radius (wr : ℝ) (ball : Ball) : (colorFor wr ball).radius = ball.radius := rfl
@[simp] lemma colorFor_addedMomentum (wr : ℝ) (ball : Ball) :
    (colorFor wr ball).addedMomentum = ball.addedMomentum := rfl

@[simp] lemma distanceFromCenter_colorFor (wr : ℝ) (ball : Ball) :
    distanceFromCenter (colorFor wr ball) = distanceFromCenter ball := rfl

@[simp] lemma speed_colorFor (wr : ℝ) (ball : Ball) : speed (colorFor wr ball) = speed ball := rfl

@[simp] lemma distanceFromCenter_gravityIntegrate_colorFor (adt wr : ℝ) (ball : Ball) :
    distanceFromCenter (gravityIntegrate adt (colorFor wr ball)) =
      distanceFromCenter (gravityIntegrate adt ball) := rfl

@[simp] lemma radius_gravityIntegrate_colorFor (adt wr : ℝ) (ball : Ball) :
    (gravityIntegrate adt (colorFor wr ball)).radius = (gravityIntegrate adt ball).radius := rfl

@[simp] lemma gravityIntegrate_radius (adt : ℝ) (ball : Ball) :
    (gravityIntegrate adt ball).radius = ball.radius := rfl
@[simp] lemma gravityIntegrate_addedMomentum (adt : ℝ) (ball : Ball) :
    (gravityIntegrate adt ball).addedMomentum = ball.addedMomentum := rfl

@[simp] lemma collide_radius (wr u1 u2 : ℝ) (ball : Ball) :
    (collide wr u1 u2 ball).radius = ball.radius := rfl
@[simp] lemma collide_x (wr u1 u2 : ℝ) (ball : Ball) :
    (collide wr u1 u2 ball).x = (clampedPos wr ball).1 := rfl
@[simp] lemma collide_y (wr u1 u2 : ℝ) (ball : Ball) :
    (collide wr u1 u2 ball).y = (clampedPos wr ball).2 := rfl
@[simp] lemma collide_addedMomentum (wr u1 u2 : ℝ) (ball : Ball) :
    (collide wr u1 u2 ball).addedMomentum = min (ball.addedMomentum + 0.05) 5.0 := rfl

@[simp] lemma createDuplicateBall_x (ball : Ball) (m : ℝ) :
    (createDuplicateBall ball m).x = ball.x := rfl
@[simp] lemma createDuplicateBall_y (ball : Ball) (m : ℝ) :
    (createDuplicateBall ball m).y = ball.y := rfl
@[simp] lemma createDuplicateBall_dx (ball : Ball) (m : ℝ) :
    (createDuplicateBall ball m).dx = ball.dx * m := rfl
@[simp] lemma createDuplicateBall_dy (ball : Ball) (m : ℝ) :
    (createDuplicateBall ball m).dy = ball.dy * m := rfl
@[simp] lemma createDuplicateBall_radius (ball : Ball) (m : ℝ) :
    (createDuplicateBall ball m).radius = ball.radius := rfl
@[simp] lemma createDuplicateBall_addedMomentum (ball : Ball) (m : ℝ) :
    (createDuplicateBall ball m).addedMomentum = 1.05 := rfl

@[simp] lemma speedClamp_x (ball : Ball) : (speedClamp ball).x = ball.x := by
  unfold speedClamp; dsimp only; split <;> rfl
@[simp] lemma speedClamp_y (ball : Ball) : (speedClamp ball).y = ball.y := by
  unfold speedClamp; dsimp only; split <;> rfl
@[simp] lemma speedClamp_radius (ball : Ball) : (speedClamp ball).radius = ball.radius := by
  unfold speedClamp; dsimp only; split <;> rfl
@[simp] lemma speedClamp_addedMomentum (ball : Ball) :
    (speedClamp ball).addedMomentum = ball.addedMomentum := by
  unfold speedClamp; dsimp only; split <;> rfl
@[simp] lemma distanceFromCenter_speedClamp (ball : Ball) :
    distanceFromCenter (speedClamp ball) = distanceFromCenter ball := by
  unfold distanceFromCenter; rw [speedClamp_x, speedClamp_y]

@[simp] lemma processBall_radius (wr adt u1 u2 : ℝ) (ball : Ball) :
    (processBall wr adt u1 u2 ball).radius = ball.radius := by
  unfold processBall; dsimp only; split <;> simp

lemma colorFor_colorFor (wr : ℝ) (ball : Ball) :
    colorFor wr (colorFor wr ball) = colorFor wr ball := rfl

lemma colorFor_speedClamp_colorFor (wr : ℝ) (ball : Ball) :
    colorFor wr (speedClamp (colorFor wr ball)) = speedClamp (colorFor wr ball) := by
  unfold speedClamp
  dsimp only
  split
  · ext <;> simp [colorFor, distanceFromCenter]
  · ext <;> simp [colorFor, distanceFromCenter]

lemma numCollisions_map_colorFor (wr adt wr2 : ℝ) (l : List Ball) :
    numCollisions wr adt (l.map (colorFor wr2)) = numCollisions wr adt l := by
  induction l with
  | nil => rfl
  | cons ball rest ih => simp [numCollisions, ih]

/-! ### Basic norm computations -/

lemma sqrt_mul_self_add_mul_self (a b : ℝ) :
    Real.sqrt (a * a + b * b) * Real.sqrt (a * a + b * b) = a * a + b * b :=
  Real.mul_self_sqrt (add_nonneg (mul_self_nonneg a) (mul_self_nonneg b))

/-- The speed clamp really bounds the speed by 2.5, for every ball. -/
lemma speed_speedClamp_le (ball : Ball) : speed (speedClamp ball) ≤ 2.5 := by
  unfold speedClamp
  dsimp only
  split
  case isTrue h =>
    have hs0 : (0 : ℝ) < speed ball := lt_trans (by norm_num) h
    unfold speed at hs0 h ⊢
    dsimp only
    have hss := sqrt_mul_self_add_mul_self ball.dx ball.dy
    have hne : Real.sqrt (ball.dx * ball.dx + ball.dy * ball.dy) ≠ 0 := ne_of_gt hs0
    have hval : ball.dx / Real.sqrt (ball.dx * ball.dx + ball.dy * ball.dy) * 2.5 *
          (ball.dx / Real.sqrt (ball.dx * ball.dx + ball.dy * ball.dy) * 2.5) +
        ball.dy / Real.sqrt (ball.dx * ball.dx + ball.dy * ball.dy) * 2.5 *
          (ball.dy / Real.sqrt (ball.dx * ball.dx + ball.dy * ball.dy) * 2.5) = 6.25 := by
      field_simp
      nlinarith [hss]
    rw [hval, show (6.25 : ℝ) = 2.5 ^ 2 by norm_num, Real.sqrt_sq (by norm_num)]
  case isFalse h => exact le_of_not_lt h

/-! ### List plumbing for the loop characterization -/

lemma set_append_cons_length (l1 l2 : List Ball) (a b : Ball) :
    (l1 ++ a :: l2).set l1.length b = l1 ++ b :: l2 := by
  rw [List.set_append]
  simp

lemma get_append_cons_length (l1 l2 : List Ball) (a : Ball)
    (h : l1.length < (l1 ++ a :: l2).length) :
    (l1 ++ a :: l2).get ⟨l1.length, h⟩ = a := by
  simp [List.get_eq_getElem, List.getElem_append_right (le_refl l1.length)]

lemma set_map_append_cons (l1 l2 : List Ball) (a b c : Ball) (f : Ball → Ball) :
    (((l1 ++ a :: l2).set l1.length b).map f).set l1.length c = l1.map f ++ c :: l2.map f := by
  rw [set_append_cons_length, List.map_append, List.map_cons]
  have h : l1.length = (l1.map f).length := (List.length_map l1 f).symm
  rw [h, set_append_cons_length]

/-- The loop of `updateBalls`, characterized: starting from a color-saturated
processed prefix `done`, running the loop over `done ++ todo` yields the
processed originals followed by nothing else, the queued duplicates of the
colliding balls of `todo` (capped at 10000 total), and one sound per
collision. -/
lemma updateIter_eq (wallRadius adt : ℝ) (u : ℕ → ℝ) :
    ∀ (fuel : ℕ) (done todo : List Ball) (k : ℕ) (nb : List Ball) (s : ℕ),
      todo.length ≤ fuel → done.map (colorFor wallRadius) = done →
      updateIter wallRadius adt u fuel done.length (done ++ todo) k nb s =
        (done ++ processedList wallRadius adt u todo k,
         nb ++ dupsList wallRadius adt u (done.length + todo.length) todo k nb.length,
         s + numCollisions wallRadius adt todo) := by
  intro fuel
  induction fuel with
  | zero =>
    intro done todo k nb s h _
    have ht : todo = [] := List.eq_nil_of_length_eq_zero (Nat.le_zero.mp h)
    subst ht
    simp [updateIter, processedList, dupsList, numCollisions]
  | succ fuel ih =>
    intro done todo k nb s h hdone
    cases todo with
    | nil =>
      have hnot : ¬ done.length < (done ++ ([] : List Ball)).length := by simp
      simp only [updateIter]
      rw [dif_neg hnot]
      simp [processedList, dupsList, numCollisions]
    | cons ball rest =>
      have hlt : done.length < (done ++ ball :: rest).length := by
        simp only [List.length_append, List.length_cons]
        omega
      simp only [updateIter]
      rw [dif_pos hlt]
      simp only [get_append_cons_length]
      by_cases hc : distanceFromCenter (gravityIntegrate adt ball) +
          (gravityIntegrate adt ball).radius > wallRadius
      · rw [if_pos hc]
        have hpb : processBall wallRadius adt (u k) (u (k + 1)) ball =
            collide wallRadius (u k) (u (k + 1)) (gravityIntegrate adt ball) := by
          simp only [processBall]
          rw [if_pos hc]
        simp only [set_map_append_cons, List.length_append, List.length_cons]
        set b2 := collide wallRadius (u k) (u (k + 1)) (gravityIntegrate adt ball) with hb2
        set z := speedClamp (colorFor wallRadius b2) with hz
        have hzfix : colorFor wallRadius z = z := colorFor_speedClamp_colorFor wallRadius b2
        by_cases hcap : done.length + (rest.length + 1) + nb.length < 10000
        · rw [if_pos hcap]
          have hrec := ih (done ++ [z]) (rest.map (colorFor wallRadius)) (k + 2)
            (nb ++ [createDuplicateBall b2 0.95]) (s + 1)
            (by simp only [List.length_map, List.length_cons] at h ⊢; omega)
            (by simp [hdone, hzfix])
          simp only [List.length_append, List.length_cons, List.length_map, List.length_nil,
            Nat.zero_add, List.append_assoc, List.singleton_append, List.nil_append] at hrec
          rw [hdone, hrec]
          simp only [Prod.mk.injEq]
          refine ⟨?_, ?_, ?_⟩
          · simp only [processedList]
            rw [if_pos hc, hpb]
          · simp only [dupsList]
            rw [if_pos hc, hpb]
            have hn : done.length + 1 + rest.length = done.length + (rest.length + 1) := by
              omega
            rw [if_pos (by omega : done.length + (rest.length + 1) + nb.length < 10000), hn]
          · simp only [numCollisions, numCollisions_map_colorFor]
            rw [if_pos hc]
            omega
        · rw [if_neg hcap]
          have hrec := ih (done ++ [z]) (rest.map (colorFor wallRadius)) (k + 2) nb (s + 1)
            (by simp only [List.length_map, List.length_cons] at h ⊢; omega)
            (by simp [hdone, hzfix])
          simp only [List.length_append, List.length_cons, List.length_map, List.length_nil,
            Nat.zero_add, List.append_assoc, List.singleton_append, List.nil_append] at hrec
          rw [hdone, hrec]
          simp only [Prod.mk.injEq]
          refine ⟨?_, ?_, ?_⟩
          · simp only [processedList]
            rw [if_pos hc, hpb]
          · simp only [dupsList]
            rw [if_pos hc, hpb]
            have hn : done.length + 1 + rest.length = done.length + (rest.length + 1) := by
              omega
            rw [if_neg (by omega : ¬ done.length + (rest.length + 1) + nb.length < 10000), hn]
          · simp only [numCollisions, numCollisions_map_colorFor]
            rw [if_pos hc]
            omega
      · rw [if_neg hc]
        have hpb : processBall wallRadius adt (u k) (u (k + 1)) ball =
            gravityIntegrate adt ball := by
          simp only [processBall]
          rw [if_neg hc]
        simp only [set_map_append_cons, List.length_append, List.length_cons]
        set b1 := gravityIntegrate adt ball with hb1
        set z := speedClamp (colorFor wallRadius b1) with hz
        have hzfix : colorFor wallRadius z = z := colorFor_speedClamp_colorFor wallRadius b1
        have hrec := ih (done ++ [z]) (rest.map (colorFor wallRadius)) k nb s
          (by simp only [List.length_map, List.length_cons] at h ⊢; omega)
          (by simp [hdone, hzfix])
        simp only [List.length_append, List.length_cons, List.length_map, List.length_nil,
          Nat.zero_add, List.append_assoc, List.singleton_append, List.nil_append] at hrec
        rw [hdone, hrec]
        simp only [Prod.mk.injEq]
        refine ⟨?_, ?_, ?_⟩
        · simp only [processedList]
          rw [if_neg hc, hpb]
        · simp only [dupsList]
          rw [if_neg hc]
          have hn : done.length + 1 + rest.length = done.length + (rest.length + 1) := by
            omega
          rw [hn]
        · simp only [numCollisions, numCollisions_map_colorFor]
          rw [if_neg hc]
          omega

/-- `updateBalls`, characterized: the output population is the processed
originals followed by the queued duplicates, and the sound count is the number
of collisions. -/
lemma updateBalls_eq (balls : List Ball) (wallRadius deltaTime : ℝ) (u : ℕ → ℝ) :
    updateBalls balls wallRadius deltaTime u =
      (processedList wallRadius (deltaTime * 0.5) u balls 0 ++
         dupsList wallRadius (deltaTime * 0.5) u balls.length balls 0 0,
       numCollisions wallRadius (deltaTime * 0.5) balls) := by
  unfold updateBalls
  dsimp only
  have h := updateIter_eq wallRadius (deltaTime * 0.5) u balls.length [] balls 0 [] 0
    (le_refl _) rfl
  simp only [List.nil_append, List.length_nil, Nat.zero_add] at h
  rw [h]

/-! ### Lengths of the processed and duplicate lists -/

lemma length_processedList (wr adt : ℝ) (u : ℕ → ℝ) (l : List Ball) (k : ℕ) :
    (processedList wr adt u l k).length = l.length := by
  induction l, k using processedList.induct wr adt u with
  | case1 k => simp [processedList]
  | case2 ball rest k ih =>
    simp only [dite_eq_ite, List.length_map] at ih
    simp only [processedList, List.length_cons, ih]

lemma length_updateBalls (balls : List Ball) (wallRadius deltaTime : ℝ) (u : ℕ → ℝ) :
    (updateBalls balls wallRadius deltaTime u).1.length =
      balls.length +
        (dupsList wallRadius (deltaTime * 0.5) u balls.length balls 0 0).length := by
  rw [updateBalls_eq]
  simp [length_processedList]

lemma le_length_updateBalls (balls : List Ball) (wallRadius deltaTime : ℝ) (u : ℕ → ℝ) :
    balls.length ≤ (updateBalls balls wallRadius deltaTime u).1.length := by
  rw [length_updateBalls]
  omega

lemma dupsList_cap (wr adt : ℝ) (u : ℕ → ℝ) (n : ℕ) (l : List Ball) (k cnt : ℕ) :
    n + cnt ≤ 10000 → n + cnt + (dupsList wr adt u n l k cnt).length ≤ 10000 := by
  induction l, k, cnt using dupsList.induct wr adt u n with
  | case1 k cnt => intro h; simp only [dupsList, List.length_nil]; omega
  | case2 ball rest k cnt hc hcap ih =>
    intro _
    simp only [dupsList]
    rw [if_pos hc, if_pos hcap, List.length_cons]
    have := ih (by omega)
    omega
  | case3 ball rest k cnt hc hcap ih =>
    intro h
    simp only [dupsList]
    rw [if_pos hc, if_neg hcap]
    exact ih h
  | case4 ball rest k cnt hc ih =>
    intro h
    simp only [dupsList]
    rw [if_neg hc]
    exact ih h

/-! ### Per-ball invariants and containment -/

lemma norm_clampedPos (wr : ℝ) (ball : Ball) (hrw : ball.radius < wr)
    (hd : distanceFromCenter ball ≠ 0) :
    Real.sqrt ((clampedPos wr ball).1 * (clampedPos wr ball).1 +
      (clampedPos wr ball).2 * (clampedPos wr ball).2) = wr - ball.radius := by
  unfold clampedPos
  rw [if_neg hd]
  dsimp only
  have hdd : distanceFromCenter ball * distanceFromCenter ball =
      ball.x * ball.x + ball.y * ball.y := sqrt_mul_self_add_mul_self ball.x ball.y
  have hval : wr - ball.radius > 0 := by linarith
  have hkey : (wr - ball.radius) * (ball.x / distanceFromCenter ball) *
        ((wr - ball.radius) * (ball.x / distanceFromCenter ball)) +
      (wr - ball.radius) * (ball.y / distanceFromCenter ball) *
        ((wr - ball.radius) * (ball.y / distanceFromCenter ball)) =
      (wr - ball.radius) * (wr - ball.radius) := by
    field_simp
    nlinarith [hdd]
  rw [hkey, Real.sqrt_mul_self (le_of_lt hval)]

lemma distanceFromCenter_collide (wr u1 u2 : ℝ) (ball : Ball) (hrw : ball.radius < wr)
    (hc : distanceFromCenter ball + ball.radius > wr) :
    distanceFromCenter (collide wr u1 u2 ball) = wr - ball.radius := by
  have hd0 : 0 < distanceFromCenter ball := by linarith
  have h0 : distanceFromCenter (collide wr u1 u2 ball) =
      Real.sqrt ((clampedPos wr ball).1 * (clampedPos wr ball).1 +
        (clampedPos wr ball).2 * (clampedPos wr ball).2) := rfl
  rw [h0, norm_clampedPos wr ball hrw (ne_of_gt hd0)]

/-- Containment of the per-ball physics result: whether it collided (and was
clamped to the wall) or not (and failed the collision test), the processed
ball's bounding circle is inside the wall. -/
lemma processBall_contain (wr adt u1 u2 : ℝ) (ball : Ball) (h : ball.radius < wr) :
    distanceFromCenter (processBall wr adt u1 u2 ball) +
      (processBall wr adt u1 u2 ball).radius ≤ wr := by
  unfold processBall
  dsimp only
  split
  case isTrue hc =>
    rw [distanceFromCenter_collide _ _ _ _ (by simpa using h) hc, collide_radius]
    simp
  case isFalse hc =>
    exact le_of_not_lt (by simpa using hc)

lemma processBall_inv (wr adt u1 u2 : ℝ) (ball : Ball) (h : ballInv ball) :
    ballInv (processBall wr adt u1 u2 ball) := by
  obtain ⟨h1, h2, h3⟩ := h
  refine ⟨by rw [processBall_radius]; exact h1, ?_, ?_⟩ <;>
  · unfold processBall
    dsimp only
    split
    · simp only [collide_addedMomentum, gravityIntegrate_addedMomentum]
      first
      | exact le_min (by linarith) (by norm_num)
      | exact min_le_right _ _
    · simp only [gravityIntegrate_addedMomentum]
      first | exact h2 | exact h3

@[simp] lemma ballInv_speedClamp (ball : Ball) : ballInv (speedClamp ball) ↔ ballInv ball := by
  unfold ballInv
  rw [speedClamp_radius, speedClamp_addedMomentum]

@[simp] lemma ballInv_colorFor (wr : ℝ) (ball : Ball) :
    ballInv (colorFor wr ball) ↔ ballInv ball := by
  unfold ballInv
  rw [colorFor_radius, colorFor_addedMomentum]

lemma processedList_speed (wr adt : ℝ) (u : ℕ → ℝ) (l : List Ball) (k : ℕ) :
    ∀ ball ∈ processedList wr adt u l k, speed ball ≤ 2.5 := by
  induction l, k using processedList.induct wr adt u with
  | case1 k => simp [processedList]
  | case2 ball rest k ih =>
    intro x hx
    simp only [processedList, List.mem_cons] at hx
    rcases hx with h | h
    · rw [h]; exact speed_speedClamp_le _
    · exact ih x h

lemma processedList_contain (wr adt : ℝ) (u : ℕ → ℝ) (l : List Ball) (k : ℕ)
    (hl : ∀ ball ∈ l, ball.radius < wr) :
    ∀ ball ∈ processedList wr adt u l k, distanceFromCenter ball + ball.radius ≤ wr := by
  induction l, k using processedList.induct wr adt u with
  | case1 k => simp [processedList]
  | case2 ball rest k ih =>
    intro x hx
    simp only [processedList, List.mem_cons] at hx
    rcases hx with h | h
    · rw [h]
      simp only [distanceFromCenter_speedClamp, distanceFromCenter_colorFor,
        speedClamp_radius, colorFor_radius]
      exact processBall_contain wr adt _ _ ball (hl ball (List.mem_cons_self _ _))
    · refine ih ?_ x h
      intro c hc
      obtain ⟨c0, hc0, rfl⟩ := List.mem_map.mp hc
      rw [colorFor_radius]
      exact hl c0 (List.mem_cons_of_mem _ hc0)

lemma processedList_inv (wr adt : ℝ) (u : ℕ → ℝ) (l : List Ball) (k : ℕ)
    (hl : ∀ ball ∈ l, ballInv ball) :
    ∀ ball ∈ processedList wr adt u l k, ballInv ball := by
  induction l, k using processedList.induct wr adt u with
  | case1 k => simp [processedList]
  | case2 ball rest k ih =>
    intro x hx
    simp only [processedList, List.mem_cons] at hx
    rcases hx with h | h
    · rw [h]
      rw [ballInv_speedClamp, ballInv_colorFor]
      exact processBall_inv wr adt _ _ ball (hl ball (List.mem_cons_self _ _))
    · refine ih ?_ x h
      intro c hc
      obtain ⟨c0, hc0, rfl⟩ := List.mem_map.mp hc
      rw [ballInv_colorFor]
      exact hl c0 (List.mem_cons_of_mem _ hc0)

lemma dupsList_contain (wr adt : ℝ) (u : ℕ → ℝ) (n : ℕ) (l : List Ball) (k cnt : ℕ)
    (hl : ∀ ball ∈ l, ball.radius < wr) :
    ∀ ball ∈ dupsList wr adt u n l k cnt, distanceFromCenter ball + ball.radius ≤ wr := by
  induction l, k, cnt using dupsList.induct wr adt u n with
  | case1 k cnt => simp [dupsList]
  | case2 ball rest k cnt hc hcap ih =>
    intro x hx
    simp only [dupsList] at hx
    rw [if_pos hc, if_pos hcap] at hx
    rcases List.mem_cons.mp hx with h | h
    · rw [h]
      have hdc : distanceFromCenter (createDuplicateBall
            (processBall wr adt (u k) (u (k + 1)) ball) 0.95) =
          distanceFromCenter (processBall wr adt (u k) (u (k + 1)) ball) := by
        unfold distanceFromCenter
        rw [createDuplicateBall_x, createDuplicateBall_y]
      rw [hdc, createDuplicateBall_radius, processBall_radius]
      have := processBall_contain wr adt (u k) (u (k + 1)) ball
        (hl ball (List.mem_cons_self _ _))
      rwa [processBall_radius] at this
    · refine ih ?_ x h
      intro c hcm
      obtain ⟨c0, hc0, rfl⟩ := List.mem_map.mp hcm
      rw [colorFor_radius]
      exact hl c0 (List.mem_cons_of_mem _ hc0)
  | case3 ball rest k cnt hc hcap ih =>
    intro x hx
    simp only [dupsList] at hx
    rw [if_pos hc, if_neg hcap] at hx
    refine ih ?_ x hx
    intro c hcm
    obtain ⟨c0, hc0, rfl⟩ := List.mem_map.mp hcm
    rw [colorFor_radius]
    exact hl c0 (List.mem_cons_of_mem _ hc0)
  | case4 ball rest k cnt hc ih =>
    intro x hx
    simp only [dupsList] at hx
    rw [if_neg hc] at hx
    refine ih ?_ x hx
    intro c hcm
    obtain ⟨c0, hc0, rfl⟩ := List.mem_map.mp hcm
    rw [colorFor_radius]
    exact hl c0 (List.mem_cons_of_mem _ hc0)

lemma dupsList_inv (wr adt : ℝ) (u : ℕ → ℝ) (n : ℕ) (l : List Ball) (k cnt : ℕ)
    (hl : ∀ ball ∈ l, ballInv ball) :
    ∀ ball ∈ dupsList wr adt u n l k cnt, ballInv ball := by
  induction l, k, cnt using dupsList.induct wr adt u n with
  | case1 k cnt => simp [dupsList]
  | case2 ball rest k cnt hc hcap ih =>
    intro x hx
    simp only [dupsList] at hx
    rw [if_pos hc, if_pos hcap] at hx
    rcases List.mem_cons.mp hx with h | h
    · rw [h]
      refine ⟨?_, by norm_num, by norm_num⟩
      rw [createDuplicateBall_radius, processBall_radius]
      exact (hl ball (List.mem_cons_self _ _)).1
    · refine ih ?_ x h
      intro c hcm
      obtain ⟨c0, hc0, rfl⟩ := List.mem_map.mp hcm
      rw [ballInv_colorFor]
      exact hl c0 (List.mem_cons_of_mem _ hc0)
  | case3 ball rest k cnt hc hcap ih =>
    intro x hx
    simp only [dupsList] at hx
    rw [if_pos hc, if_neg hcap] at hx
    refine ih ?_ x hx
    intro c hcm
    obtain ⟨c0, hc0, rfl⟩ := List.mem_map.mp hcm
    rw [ballInv_colorFor]
    exact hl c0 (List.mem_cons_of_mem _ hc0)
  | case4 ball rest k cnt hc ih =>
    intro x hx
    simp only [dupsList] at hx
    rw [if_neg hc] at hx
    refine ih ?_ x hx
    intro c hcm
    obtain ⟨c0, hc0, rfl⟩ := List.mem_map.mp hcm
    rw [ballInv_colorFor]
    exact hl c0 (List.mem_cons_of_mem _ hc0)

/-! ### The collision branch: renormalized speed and the normal vector -/

/-- After renormalization and momentum scaling, the colliding ball's speed is
exactly `1.05 + min (addedMomentum + 0.05) 5.0` — provided the blended velocity
was nonzero (so the renormalization divided by a nonzero speed). -/
lemma speed_collide (wr u1 u2 : ℝ) (ball : Ball) (hs : blendedSpeed wr u1 u2 ball ≠ 0)
    (ham : 1.05 ≤ ball.addedMomentum) :
    speed (collide wr u1 u2 ball) = 1.05 + min (ball.addedMomentum + 0.05) 5.0 := by
  set v1 := (blendedVel wr u1 u2 ball).1 with hv1
  set v2 := (blendedVel wr u1 u2 ball).2 with hv2
  set s := blendedSpeed wr u1 u2 ball with hsdef
  set t := 1.05 + min (ball.addedMomentum + 0.05) 5.0 with ht
  have hss : s * s = v1 * v1 + v2 * v2 := by
    rw [hsdef]
    unfold blendedSpeed
    exact sqrt_mul_self_add_mul_self _ _
  have ht0 : 0 < t := by
    have : 0 < min (ball.addedMomentum + 0.05) 5.0 := lt_min (by linarith) (by norm_num)
    rw [ht]; linarith
  have h0 : speed (collide wr u1 u2 ball) =
      Real.sqrt (v1 / s * t * (v1 / s * t) + v2 / s * t * (v2 / s * t)) := rfl
  have hexp : v1 / s * t * (v1 / s * t) + v2 / s * t * (v2 / s * t) = t * t := by
    field_simp
    nlinarith [hss]
  rw [h0, hexp, Real.sqrt_mul_self (le_of_lt ht0)]

/-- In the collision branch the pre-clamp distance is strictly positive (the
`distance = 0` degenerate case cannot occur when the wall is wider than the
ball), so the divisions by `distanceFromCenter` are divisions by a nonzero
number and the clamp takes its generic branch. -/
lemma collision_distance_pos (wr : ℝ) (ball : Ball) (hr : ball.radius < wr)
    (hc : distanceFromCenter ball + ball.radius > wr) :
    0 < distanceFromCenter ball ∧
      clampedPos wr ball =
        ((wr - ball.radius) * (ball.x / distanceFromCenter ball),
         (wr - ball.radius) * (ball.y / distanceFromCenter ball)) := by
  have hd : 0 < distanceFromCenter ball := by linarith
  refine ⟨hd, ?_⟩
  unfold clampedPos
  rw [if_neg (ne_of_gt hd)]

/-- The normal actually used by the collision response: proportional to the
pre-clamp position with factor `(wr - radius)/d²`, hence of norm
`(wr - radius)/d`, which is strictly below 1 in the collision regime. -/
lemma collisionNormal_characterization (wr : ℝ) (ball : Ball) (hr : ball.radius < wr)
    (hc : distanceFromCenter ball + ball.radius > wr) :
    (collisionNormal wr ball).1 =
        (wr - ball.radius) / (distanceFromCenter ball * distanceFromCenter ball) * ball.x ∧
      (collisionNormal wr ball).2 =
        (wr - ball.radius) / (distanceFromCenter ball * distanceFromCenter ball) * ball.y ∧
      Real.sqrt ((collisionNormal wr ball).1 * (collisionNormal wr ball).1 +
          (collisionNormal wr ball).2 * (collisionNormal wr ball).2) =
        (wr - ball.radius) / distanceFromCenter ball ∧
      (wr - ball.radius) / distanceFromCenter ball < 1 := by
  obtain ⟨hd, hp⟩ := collision_distance_pos wr ball hr hc
  have hdne : distanceFromCenter ball ≠ 0 := ne_of_gt hd
  have h1 : (collisionNormal wr ball).1 =
      (wr - ball.radius) / (distanceFromCenter ball * distanceFromCenter ball) * ball.x := by
    unfold collisionNormal
    rw [hp]
    dsimp only
    field_simp
  have h2 : (collisionNormal wr ball).2 =
      (wr - ball.radius) / (distanceFromCenter ball * distanceFromCenter ball) * ball.y := by
    unfold collisionNormal
    rw [hp]
    dsimp only
    field_simp
  refine ⟨h1, h2, ?_, ?_⟩
  · have hdd : distanceFromCenter ball * distanceFromCenter ball =
        ball.x * ball.x + ball.y * ball.y := sqrt_mul_self_add_mul_self ball.x ball.y
    have hnn : (0 : ℝ) ≤ (wr - ball.radius) / distanceFromCenter ball :=
      div_nonneg (by linarith) (le_of_lt hd)
    have hval : (collisionNormal wr ball).1 * (collisionNormal wr ball).1 +
        (collisionNormal wr ball).2 * (collisionNormal wr ball).2 =
        (wr - ball.radius) / distanceFromCenter ball *
          ((wr - ball.radius) / distanceFromCenter ball) := by
      rw [h1, h2]
      have expand : (wr - ball.radius) / (distanceFromCenter ball * distanceFromCenter ball) *
            ball.x * ((wr - ball.radius) / (distanceFromCenter ball * distanceFromCenter ball) *
            ball.x) +
          (wr - ball.radius) / (distanceFromCenter ball * distanceFromCenter ball) * ball.y *
            ((wr - ball.radius) / (distanceFromCenter ball * distanceFromCenter ball) * ball.y) =
          ((wr - ball.radius) / (distanceFromCenter ball * distanceFromCenter ball)) ^ 2 *
            (ball.x * ball.x + ball.y * ball.y) := by ring
      rw [expand, ← hdd]
      field_simp
      ring
    rw [hval, Real.sqrt_mul_self hnn]
  · rw [div_lt_one hd]
    linarith

/-! ### A concrete colliding ball, with its collision branch evaluated -/

/-- A concrete ball sitting on the wall of radius 1 (distance 1, so the
collision test 1 + 0.05 > 1 fires), moving outward with speed 3. -/
def cexBall3 : Ball := ⟨1, 0, 3, 0, 0.05, 0, 0, 0, 1.05⟩

lemma distance_cexBall3 : distanceFromCenter cexBall3 = 1 := by
  unfold distanceFromCenter cexBall3
  norm_num

lemma clampedPos_cexBall3 : clampedPos 1 cexBall3 = (0.95, 0) := by
  unfold clampedPos
  rw [distance_cexBall3]
  rw [if_neg one_ne_zero]
  unfold cexBall3
  norm_num

lemma collisionNormal_cexBall3 : collisionNormal 1 cexBall3 = (0.95, 0) := by
  unfold collisionNormal
  rw [distance_cexBall3, clampedPos_cexBall3]
  norm_num

lemma blendedVel_cexBall3 : blendedVel 1 (1 / 2) (1 / 2) cexBall3 = (-1.6825, 0) := by
  unfold blendedVel
  dsimp only
  rw [distance_cexBall3, clampedPos_cexBall3, collisionNormal_cexBall3]
  unfold reflectVel dis cexBall3
  norm_num

lemma blendedSpeed_cexBall3 : blendedSpeed 1 (1 / 2) (1 / 2) cexBall3 = 1.6825 := by
  unfold blendedSpeed
  rw [blendedVel_cexBall3]
  dsimp only
  rw [show (-1.6825 : ℝ) * -1.6825 + 0 * 0 = 1.6825 ^ 2 by norm_num,
    Real.sqrt_sq (by norm_num)]

/-! ### Claim theorems -/

/-- C1 (amended): after every update step, every ball of the ORIGINAL
population — the first `balls.length` entries of `updateBalls`' output — has
velocity magnitude at most 2.5.  (The duplicates appended at the end of the
step are exempt: they are queued before the speed clamp runs and are not
clamped in the step that creates them; see the counterexample.) -/
theorem C1_originals_speed_clamped (balls : List Ball) (wallRadius deltaTime : ℝ)
    (u : ℕ → ℝ) (j : ℕ) (hj : j < balls.length) :
    speed ((updateBalls balls wallRadius deltaTime u).1.getD j defaultBall) ≤ 2.5 := by
  rw [updateBalls_eq]
  dsimp only
  rw [List.getD_append _ _ _ j (by rw [length_processedList]; exact hj)]
  rw [List.getD_eq_getElem _ _ (by rw [length_processedList]; exact hj)]
  exact processedList_speed _ _ _ _ _ _ (List.getElem_mem _)

theorem C1_originals_speed_clamped_witness :
    speed ((updateBalls [defaultBall] 1 0 (fun _ => 0)).1.getD 0 defaultBall) ≤ 2.5 :=
  C1_originals_speed_clamped [defaultBall] 1 0 (fun _ => 0) 0 (by simp)

/-- C2 (amended): in the collision branch, under the precondition
`wall_radius > radius`, the pre-clamp distance is strictly positive, so the
divisions by `distanceFromCenter` (normal and center-direction computation)
have nonzero denominators, and the position clamp takes its generic branch.
(The other division of the branch — the renormalization by the blended speed —
CAN divide by zero for admissible random draws; see the counterexample.) -/
theorem C2_distance_divisions_safe (wallRadius : ℝ) (ball : Ball)
    (hr : ball.radius < wallRadius)
    (hc : distanceFromCenter ball + ball.radius > wallRadius) :
    0 < distanceFromCenter ball ∧
      clampedPos wallRadius ball =
        ((wallRadius - ball.radius) * (ball.x / distanceFromCenter ball),
         (wallRadius - ball.radius) * (ball.y / distanceFromCenter ball)) :=
  collision_distance_pos wallRadius ball hr hc

theorem C2_distance_divisions_safe_witness :
    0 < distanceFromCenter cexBall3 ∧
      clampedPos 1 cexBall3 =
        ((1 - cexBall3.radius) * (cexBall3.x / distanceFromCenter cexBall3),
         (1 - cexBall3.radius) * (cexBall3.y / distanceFromCenter cexBall3)) :=
  C2_distance_divisions_safe 1 cexBall3 (by norm_num [cexBall3])
    (by rw [distance_cexBall3]; norm_num [cexBall3])

/-- C3 (amended): the normal used for reflection is
`n = position_after_clamp / distance_before_clamp`, i.e. the vector
`((wr - radius)/d²) · position_before_clamp`; its magnitude is
`(wr - radius)/d`, which is strictly LESS than 1 in the collision regime
(`d + radius > wr`), not 1.  The reflected velocity is `v - 2(v·n)n` for this
non-unit `n` (this is `reflectVel`, used verbatim inside `blendedVel`). -/
theorem C3_collision_normal_characterization (wallRadius : ℝ) (ball : Ball)
    (hr : ball.radius < wallRadius)
    (hc : distanceFromCenter ball + ball.radius > wallRadius) :
    (collisionNormal wallRadius ball).1 =
        (wallRadius - ball.radius) /
          (distanceFromCenter ball * distanceFromCenter ball) * ball.x ∧
      (collisionNormal wallRadius ball).2 =
        (wallRadius - ball.radius) /
          (distanceFromCenter ball * distanceFromCenter ball) * ball.y ∧
      Real.sqrt ((collisionNormal wallRadius ball).1 * (collisionNormal wallRadius ball).1 +
          (collisionNormal wallRadius ball).2 * (collisionNormal wallRadius ball).2) =
        (wallRadius - ball.radius) / distanceFromCenter ball ∧
      (wallRadius - ball.radius) / distanceFromCenter ball < 1 :=
  collisionNormal_characterization wallRadius ball hr hc

theorem C3_collision_normal_characterization_witness :
    (collisionNormal 1 cexBall3).1 =
        (1 - cexBall3.radius) /
          (distanceFromCenter cexBall3 * distanceFromCenter cexBall3) * cexBall3.x ∧
      (collisionNormal 1 cexBall3).2 =
        (1 - cexBall3.radius) /
          (distanceFromCenter cexBall3 * distanceFromCenter cexBall3) * cexBall3.y ∧
      Real.sqrt ((collisionNormal 1 cexBall3).1 * (collisionNormal 1 cexBall3).1 +
          (collisionNormal 1 cexBall3).2 * (collisionNormal 1 cexBall3).2) =
        (1 - cexBall3.radius) / distanceFromCenter cexBall3 ∧
      (1 - cexBall3.radius) / distanceFromCenter cexBall3 < 1 :=
  C3_collision_normal_characterization 1 cexBall3 (by norm_num [cexBall3])
    (by rw [distance_cexBall3]; norm_num [cexBall3])

/-- C4 (amended): the population never shrinks across an update step; if it is
within the cap of MAX_BALLS = 10000 it stays within the cap; and at the cap
the update step adds no collision duplicate.  (The claim's further assertion
that an explicit user spawn is also suppressed at the cap is FALSE:
`processInput` appends unconditionally; see the counterexample.) -/
theorem C4_population_bounds (balls : List Ball) (wallRadius deltaTime : ℝ) (u : ℕ → ℝ) :
    balls.length ≤ (updateBalls balls wallRadius deltaTime u).1.length ∧
      (balls.length ≤ 10000 → (updateBalls balls wallRadius deltaTime u).1.length ≤ 10000) ∧
      (balls.length = 10000 → (updateBalls balls wallRadius deltaTime u).1.length = 10000) := by
  refine ⟨le_length_updateBalls balls wallRadius deltaTime u, ?_, ?_⟩
  · intro h
    rw [length_updateBalls]
    have := dupsList_cap wallRadius (deltaTime * 0.5) u balls.length balls 0 0 (by omega)
    omega
  · intro h
    rw [length_updateBalls]
    have := dupsList_cap wallRadius (deltaTime * 0.5) u balls.length balls 0 0 (by omega)
    omega

theorem C4_population_bounds_witness :
    (updateBalls [defaultBall] 1 0 (fun _ => 0)).1.length ≤ 10000 :=
  (C4_population_bounds [defaultBall] 1 0 (fun _ => 0)).2.1 (by simp)

/-- C5: on a wall collision (of a ball with the data-model momentum bound),
whenever the blended post-collision velocity is nonzero, `addedMomentum` is
incremented (to `min (old + 0.05) 5.0`) BEFORE the final velocity scaling, and
the velocity right after the momentum scaling — before the speed clamp and
before the duplicate is taken — has magnitude exactly
`1.05 + min (old + 0.05) 5.0`. -/
theorem C5_momentum_increment_before_scaling (wallRadius u1 u2 : ℝ) (ball : Ball)
    (_hc : distanceFromCenter ball + ball.radius > wallRadius)
    (ham : 1.05 ≤ ball.addedMomentum)
    (hs : blendedSpeed wallRadius u1 u2 ball ≠ 0) :
    (collide wallRadius u1 u2 ball).addedMomentum =
        min (ball.addedMomentum + 0.05) 5.0 ∧
      speed (collide wallRadius u1 u2 ball) =
        1.05 + min (ball.addedMomentum + 0.05) 5.0 :=
  ⟨rfl, speed_collide wallRadius u1 u2 ball hs ham⟩

theorem C5_momentum_increment_before_scaling_witness :
    (collide 1 (1 / 2) (1 / 2) cexBall3).addedMomentum =
        min (cexBall3.addedMomentum + 0.05) 5.0 ∧
      speed (collide 1 (1 / 2) (1 / 2) cexBall3) =
        1.05 + min (cexBall3.addedMomentum + 0.05) 5.0 :=
  C5_momentum_increment_before_scaling 1 (1 / 2) (1 / 2) cexBall3
    (by rw [distance_cexBall3]; norm_num [cexBall3])
    (by norm_num [cexBall3])
    (by rw [blendedSpeed_cexBall3]; norm_num)

/-- C6: every ball ever produced satisfies the data-model invariant
`radius = 0.05 ∧ 1.05 ≤ addedMomentum ≤ 5.0`: random spawns satisfy it
outright, duplicates of an invariant ball satisfy it, and the update step
preserves it for the whole output population (original balls and appended
duplicates alike; out-of-range indices return the invariant default). -/
theorem C6_ball_invariant :
    (∀ (wallRadius : ℝ) (u : ℕ → ℝ) (fuel k : ℕ) (ball : Ball),
        createRandomBall wallRadius u fuel k = some ball → ballInv ball) ∧
      (∀ (ball : Ball) (m : ℝ), ballInv ball → ballInv (createDuplicateBall ball m)) ∧
      (∀ (balls : List Ball) (wallRadius deltaTime : ℝ) (u : ℕ → ℝ),
        (∀ ball ∈ balls, ballInv ball) →
        ∀ j : ℕ, ballInv ((updateBalls balls wallRadius deltaTime u).1.getD j defaultBall)) := by
  refine ⟨?_, ?_, ?_⟩
  · intro wallRadius u fuel
    induction fuel with
    | zero => intro k ball h; simp [createRandomBall] at h
    | succ fuel ih =>
      intro k ball h
      simp only [createRandomBall] at h
      split at h
      · exact ih (k + 2) ball h
      · obtain rfl : _ = ball := Option.some_injective _ h
        exact ⟨rfl, by norm_num, by norm_num⟩
  · rintro ball m ⟨h1, _, _⟩
    exact ⟨by rw [createDuplicateBall_radius]; exact h1, by norm_num, by norm_num⟩
  · intro balls wallRadius deltaTime u hb j
    rw [updateBalls_eq]
    dsimp only
    by_cases hj : j < (processedList wallRadius (deltaTime * 0.5) u balls 0 ++
        dupsList wallRadius (deltaTime * 0.5) u balls.length balls 0 0).length
    · rw [List.getD_eq_getElem _ _ hj]
      rcases List.mem_append.mp (List.getElem_mem hj) with h | h
      · exact processedList_inv _ _ _ _ _ hb _ h
      · exact dupsList_inv _ _ _ _ _ _ _ hb _ h
    · rw [List.getD_eq_default _ _ (le_of_not_lt hj)]
      exact ⟨rfl, by norm_num [defaultBall], by norm_num [defaultBall]⟩

theorem C6_ball_invariant_witness : ballInv (createDuplicateBall defaultBall 0.95) :=
  C6_ball_invariant.2.1 defaultBall 0.95
    ⟨rfl, by norm_num [defaultBall], by norm_num [defaultBall]⟩

/-- C7: boundary containment after a step — whenever every input ball's radius
is below the wall radius, every ball of the output population (originals and
duplicates) satisfies `|position| + radius ≤ wall_radius`: colliding balls are
clamped to distance exactly `wall_radius - radius`, non-colliding balls failed
the collision test, and duplicates copy a clamped position. -/
theorem C7_boundary_containment (balls : List Ball) (wallRadius deltaTime : ℝ)
    (u : ℕ → ℝ) (h : ∀ ball ∈ balls, ball.radius < wallRadius) (j : ℕ)
    (hj : j < (updateBalls balls wallRadius deltaTime u).1.length) :
    distanceFromCenter ((updateBalls balls wallRadius deltaTime u).1.getD j defaultBall) +
      ((updateBalls balls wallRadius deltaTime u).1.getD j defaultBall).radius ≤
      wallRadius := by
  rw [updateBalls_eq] at hj ⊢
  dsimp only at hj ⊢
  rw [List.getD_eq_getElem _ _ hj]
  rcases List.mem_append.mp (List.getElem_mem hj) with hm | hm
  · exact processedList_contain _ _ _ _ _ h _ hm
  · exact dupsList_contain _ _ _ _ _ _ _ h _ hm

theorem C7_boundary_containment_witness :
    distanceFromCenter ((updateBalls [defaultBall] 1 0 (fun _ => 0)).1.getD 0 defaultBall) +
      ((updateBalls [defaultBall] 1 0 (fun _ => 0)).1.getD 0 defaultBall).radius ≤ 1 :=
  by
  have hlen : 0 < (updateBalls [defaultBall] 1 0 (fun _ => 0)).1.length := by
    have h := le_length_updateBalls [defaultBall] 1 0 (fun _ => 0)
    simp only [List.length_cons, List.length_nil] at h
    omega
  exact C7_boundary_containment [defaultBall] 1 0 (fun _ => 0)
    (by
      intro ball hball
      rw [List.mem_singleton] at hball
      rw [hball]
      norm_num [defaultBall])
    0 hlen

/-- C8: the side-effect and spawn contract of one update step — the sound hook
fires exactly once per ball whose post-integration position triggers the
collision test (`numCollisions`) and never for a non-colliding ball; each
colliding ball queues exactly one duplicate while the existing population plus
already-queued duplicates is below the cap (`dupsList`, whose entries are
`createDuplicateBall (post-collision ball) 0.95`, i.e. a copy with velocity
scaled by 0.95 and addedMomentum reset to 1.05); and the queued duplicates are
appended only after the full pass over the originals (`processedList`). -/
theorem C8_side_effect_and_spawn_contract (balls : List Ball)
    (wallRadius deltaTime : ℝ) (u : ℕ → ℝ) :
    updateBalls balls wallRadius deltaTime u =
      (processedList wallRadius (deltaTime * 0.5) u balls 0 ++
         dupsList wallRadius (deltaTime * 0.5) u balls.length balls 0 0,
       numCollisions wallRadius (deltaTime * 0.5) balls) :=
  updateBalls_eq balls wallRadius deltaTime u

/-- C3 (counterexample): for the concrete colliding ball at (1,0) with wall
radius 1, the normal computed by the code is (0.95, 0) — NOT the unit vector
`position_before_clamp / distance = (1, 0)` — and its magnitude is 0.95, not 1
(far beyond floating tolerance). -/
theorem C3_normal_not_unit_counterexample :
    distanceFromCenter cexBall3 + cexBall3.radius > 1 ∧
      collisionNormal 1 cexBall3 ≠
        (cexBall3.x / distanceFromCenter cexBall3, cexBall3.y / distanceFromCenter cexBall3) ∧
      Real.sqrt ((collisionNormal 1 cexBall3).1 * (collisionNormal 1 cexBall3).1 +
        (collisionNormal 1 cexBall3).2 * (collisionNormal 1 cexBall3).2) ≠ 1 := by
  refine ⟨?_, ?_, ?_⟩
  · rw [distance_cexBall3]
    norm_num [cexBall3]
  · rw [collisionNormal_cexBall3, distance_cexBall3]
    intro h
    rw [Prod.mk.injEq] at h
    have := h.1
    norm_num [cexBall3] at this
  · rw [collisionNormal_cexBall3]
    dsimp only
    rw [show (0.95 : ℝ) * 0.95 + 0 * 0 = 0.95 ^ 2 by norm_num, Real.sqrt_sq (by norm_num)]
    norm_num

/-- C9 (counterexample): the color band formulas do NOT agree at the band
boundaries: at t = 0.33 the first band yields g = 0.99 while the second yields
g = 1, and at t = 0.66 the second band yields (r, b) = (0.01, 0.99) while the
third yields (0, 1) — a genuine 0.01 discontinuity, beyond floating
tolerance. -/
theorem C9_bands_disagree_counterexample :
    band1 0.33 ≠ band2 0.33 ∧ band2 0.66 ≠ band3 0.66 := by
  constructor
  · intro h
    unfold band1 band2 at h
    rw [Prod.mk.injEq, Prod.mk.injEq] at h
    have := h.2.1
    norm_num at this
  · intro h
    unfold band2 band3 at h
    rw [Prod.mk.injEq, Prod.mk.injEq] at h
    have := h.1
    norm_num at this

/-- C9 (amended): at each band boundary, two of the three color components
agree and the remaining jump is exactly 0.01: at t = 0.33 only `g` jumps
(0.99 → 1, r and b agree), and at t = 0.66 `g` agrees while `r` and `b` each
jump by exactly 0.01.  The color function is therefore piecewise linear with
jumps of exactly 0.01 at the band boundaries, not continuous. -/
theorem C9_band_boundary_jumps :
    (band1 0.33).1 = (band2 0.33).1 ∧
      (band2 0.33).2.1 - (band1 0.33).2.1 = 0.01 ∧
      (band1 0.33).2.2 = (band2 0.33).2.2 ∧
      (band2 0.66).2.1 = (band3 0.66).2.1 ∧
      (band2 0.66).1 - (band3 0.66).1 = 0.01 ∧
      (band3 0.66).2.2 - (band2 0.66).2.2 = 0.01 := by
  unfold band1 band2 band3
  norm_num

/-- The rejection loop of `createRandomBall` accepts the all-(1/2) unit draw
stream immediately (position (0,0)) for wall radius 0.9, yielding the default
ball. -/
lemma createRandomBall_const_half :
    createRandomBall 0.9 (fun _ => 1 / 2) 1 0 = some defaultBall := by
  simp only [createRandomBall, posMap, velMap]
  norm_num [Real.sqrt_zero, defaultBall]

/-- C4 (counterexample): a user spawn request is NOT suppressed at the cap —
`processInput` appends unconditionally: with the population exactly at
MAX_BALLS = 10000 and a fresh space press, the population grows to 10001. -/
theorem C4_user_spawn_ignores_cap_counterexample :
    (List.replicate 10000 defaultBall).length = 10000 ∧
      (processInput true false (List.replicate 10000 defaultBall) 0.9
          (fun _ => 1 / 2) 1).map (fun p => p.1.length) = some 10001 := by
  constructor
  · exact List.length_replicate 10000 defaultBall
  · unfold processInput
    rw [if_pos rfl, if_neg (by decide), createRandomBall_const_half]
    show some ((List.replicate 10000 defaultBall ++ [defaultBall]).length) = some 10001
    rw [List.length_append, List.length_replicate]
    norm_num

/-- C10 (amended): every successfully spawned random ball has its center within
`wall_radius - 0.05` (NOT `wall_radius - 0.1`) of the origin — equivalently its
full bounding circle fits inside the wall — each position coordinate within
`wall_radius - 0.1` in absolute value, velocity components in [-0.25, 0.25],
radius 0.05 and addedMomentum 1.05; quantified over unit draws in [0, 1] and
any fuel for the rejection loop. -/
theorem C10_spawn_postcondition (wallRadius : ℝ) (u : ℕ → ℝ) (fuel k : ℕ) (ball : Ball)
    (hu : ∀ n, 0 ≤ u n ∧ u n ≤ 1) (hwr : 0.1 < wallRadius)
    (h : createRandomBall wallRadius u fuel k = some ball) :
    Real.sqrt (ball.x * ball.x + ball.y * ball.y) ≤ wallRadius - 0.05 ∧
      Real.sqrt (ball.x * ball.x + ball.y * ball.y) + ball.radius ≤ wallRadius ∧
      -(wallRadius - 0.1) ≤ ball.x ∧ ball.x ≤ wallRadius - 0.1 ∧
      -(wallRadius - 0.1) ≤ ball.y ∧ ball.y ≤ wallRadius - 0.1 ∧
      -0.25 ≤ ball.dx ∧ ball.dx ≤ 0.25 ∧ -0.25 ≤ ball.dy ∧ ball.dy ≤ 0.25 ∧
      ball.radius = 0.05 ∧ ball.addedMomentum = 1.05 := by
  induction fuel generalizing k with
  | zero => simp [createRandomBall] at h
  | succ fuel ih =>
    simp only [createRandomBall] at h
    split at h
    · exact ih _ h
    case isFalse hrej =>
      obtain rfl : _ = ball := Option.some_injective _ h
      have hpos : ∀ n, -(wallRadius - 0.1) ≤ posMap wallRadius (u n) ∧
          posMap wallRadius (u n) ≤ wallRadius - 0.1 := by
        intro n
        obtain ⟨h0, h1⟩ := hu n
        unfold posMap
        constructor <;> nlinarith
      have hvel : ∀ n, -0.25 ≤ velMap (u n) ∧ velMap (u n) ≤ 0.25 := by
        intro n
        obtain ⟨h0, h1⟩ := hu n
        unfold velMap
        constructor <;> nlinarith
      have hdist : Real.sqrt (posMap wallRadius (u k) * posMap wallRadius (u k) +
          posMap wallRadius (u (k + 1)) * posMap wallRadius (u (k + 1))) ≤
          wallRadius - 0.05 := le_of_not_lt hrej
      dsimp only
      refine ⟨hdist, by linarith, (hpos k).1, (hpos k).2,
        (hpos (k + 1)).1, (hpos (k + 1)).2, (hvel (k + 2)).1, (hvel (k + 2)).2,
        (hvel (k + 3)).1, (hvel (k + 3)).2, rfl, rfl⟩

theorem C10_spawn_postcondition_witness :
    Real.sqrt (defaultBall.x * defaultBall.x + defaultBall.y * defaultBall.y) ≤ 0.9 - 0.05 ∧
      Real.sqrt (defaultBall.x * defaultBall.x + defaultBall.y * defaultBall.y) +
        defaultBall.radius ≤ 0.9 ∧
      -(0.9 - 0.1) ≤ defaultBall.x ∧ defaultBall.x ≤ 0.9 - 0.1 ∧
      -(0.9 - 0.1) ≤ defaultBall.y ∧ defaultBall.y ≤ 0.9 - 0.1 ∧
      -0.25 ≤ defaultBall.dx ∧ defaultBall.dx ≤ 0.25 ∧
      -0.25 ≤ defaultBall.dy ∧ defaultBall.dy ≤ 0.25 ∧
      defaultBall.radius = 0.05 ∧ defaultBall.addedMomentum = 1.05 :=
  C10_spawn_postcondition 0.9 (fun _ => 1 / 2) 1 0 defaultBall
    (fun _ => by norm_num) (by norm_num) createRandomBall_const_half

/-- The unit-draw stream of the C10 counterexample: position draws mapping to
(0.9, 0.2), velocity draws mapping to 0. -/
def c10u : ℕ → ℝ := fun n => if n = 0 then 1 else if n = 1 then 11 / 18 else 1 / 2

/-- The ball those draws produce for wall radius 1. -/
def c10Ball : Ball := ⟨0.9, 0.2, 0, 0, 0.05, 0, 0, 0, 1.05⟩

/-- C10 (counterexample): the claim that the spawned position lies within
`wall_radius - 0.1` of the center is false — the rejection test only enforces
`wall_radius - 0.05`.  With wall radius 1 and admissible draws mapping to the
position (0.9, 0.2), the loop accepts on its first iteration although
`|position| = √0.85 ≈ 0.922 > 0.9 = wall_radius - 0.1`. -/
theorem C10_position_beyond_margin_counterexample :
    createRandomBall 1 c10u 1 0 = some c10Ball ∧
      Real.sqrt (c10Ball.x * c10Ball.x + c10Ball.y * c10Ball.y) > 1 - 0.1 ∧
      (0 ≤ c10u 0 ∧ c10u 0 ≤ 1) ∧ (0 ≤ c10u 1 ∧ c10u 1 ≤ 1) ∧
      (0 ≤ c10u 2 ∧ c10u 2 ≤ 1) ∧ (0 ≤ c10u 3 ∧ c10u 3 ≤ 1) ∧ (0.1 : ℝ) < 1 := by
  have hsum : c10Ball.x * c10Ball.x + c10Ball.y * c10Ball.y = 0.85 := by
    norm_num [c10Ball]
  refine ⟨?_, ?_, by norm_num [c10u], by norm_num [c10u], by norm_num [c10u],
    by norm_num [c10u], by norm_num⟩
  · have e0 : posMap 1 (c10u 0) = 0.9 := by norm_num [posMap, c10u]
    have e1 : posMap 1 (c10u 1) = 0.2 := by norm_num [posMap, c10u]
    have hcond : ¬ (Real.sqrt (posMap 1 (c10u 0) * posMap 1 (c10u 0) +
        posMap 1 (c10u 1) * posMap 1 (c10u 1)) > 1 - 0.05) := by
      rw [e0, e1, not_lt, show (0.9 : ℝ) * 0.9 + 0.2 * 0.2 = 0.85 by norm_num]
      have h1 : Real.sqrt 0.85 ≤ 0.95 := by
        rw [Real.sqrt_le_left (by norm_num)]
        norm_num
      linarith
    simp only [createRandomBall]
    rw [if_neg hcond]
    rw [e0, e1, Option.some.injEq]
    unfold c10Ball
    ext <;> norm_num [velMap, c10u]
  · rw [hsum]
    have : (1 : ℝ) - 0.1 < Real.sqrt 0.85 := by
      rw [show (1 : ℝ) - 0.1 = 0.9 by norm_num]
      rw [Real.lt_sqrt (by norm_num)]
      norm_num
    linarith

/-! ### C2 counterexample: the renormalization CAN divide by zero -/

/-- A well-formed input ball (contained, below the speed cap, invariant) that
exits through the wall during integration with `deltaTime = 0.2`; the collision
draws below are chosen so that reflection, center bias and randomness cancel
exactly. -/
def c2Ball : Ball := ⟨0.5799616, 0.7500288, -0.039616, 0.319712, 0.05, 0, 0, 0, 1.05⟩

/-- `c2Ball` after gravity and integration with `adt = 0.1`:
position (0.576, 0.768) = 0.96·(0.6, 0.8), velocity (-0.039616, 0.179712). -/
def c2BallMoved : Ball := ⟨0.576, 0.768, -0.039616, 0.179712, 0.05, 0, 0, 0, 1.05⟩

lemma gravityIntegrate_c2Ball : gravityIntegrate (0.2 * 0.5) c2Ball = c2BallMoved := by
  unfold gravityIntegrate c2Ball c2BallMoved
  ext <;> norm_num

lemma distance_c2BallMoved : distanceFromCenter c2BallMoved = 0.96 := by
  unfold distanceFromCenter c2BallMoved
  dsimp only
  rw [show (0.576 : ℝ) * 0.576 + 0.768 * 0.768 = 0.96 ^ 2 by norm_num,
    Real.sqrt_sq (by norm_num)]

lemma clampedPos_c2BallMoved : clampedPos 1 c2BallMoved = (0.57, 0.76) := by
  unfold clampedPos
  rw [distance_c2BallMoved, if_neg (by norm_num)]
  unfold c2BallMoved
  norm_num

lemma collisionNormal_c2BallMoved : collisionNormal 1 c2BallMoved = (0.59375, 19 / 24) := by
  unfold collisionNormal
  rw [distance_c2BallMoved, clampedPos_c2BallMoved]
  norm_num

lemma blendedVel_c2BallMoved :
    blendedVel 1 0.983988515625 0.9999846875 c2BallMoved = (0, 0) := by
  unfold blendedVel
  dsimp only
  rw [distance_c2BallMoved, clampedPos_c2BallMoved, collisionNormal_c2BallMoved]
  unfold reflectVel dis c2BallMoved
  norm_num

lemma blendedSpeed_c2BallMoved :
    blendedSpeed 1 0.983988515625 0.9999846875 c2BallMoved = 0 := by
  unfold blendedSpeed
  rw [blendedVel_c2BallMoved]
  dsimp only
  norm_num [Real.sqrt_zero]

/-- C2 (counterexample): the renormalization division of the collision branch
is NOT always safe — for this well-formed input ball (contained with its full
bounding circle, speed below 2.5, invariant addedMomentum) with wall radius 1,
deltaTime 0.2, and admissible random draws (both `dis` values inside [-1, 1]),
the collision test fires and the blended velocity is exactly (0, 0), so the
renormalization denominator `speed` is 0 — refuting the claim that only
`distance = 0` could divide by zero and that renormalization never does. -/
theorem C2_renormalization_div_zero_counterexample :
    distanceFromCenter (gravityIntegrate (0.2 * 0.5) c2Ball) +
        (gravityIntegrate (0.2 * 0.5) c2Ball).radius > 1 ∧
      blendedSpeed 1 0.983988515625 0.9999846875 (gravityIntegrate (0.2 * 0.5) c2Ball) = 0 ∧
      -1 ≤ dis 0.983988515625 ∧ dis 0.983988515625 ≤ 1 ∧
      -1 ≤ dis 0.9999846875 ∧ dis 0.9999846875 ≤ 1 ∧
      Real.sqrt (c2Ball.x * c2Ball.x + c2Ball.y * c2Ball.y) + c2Ball.radius ≤ 1 ∧
      speed c2Ball ≤ 2.5 ∧ ballInv c2Ball := by
  refine ⟨?_, ?_, by norm_num [dis], by norm_num [dis], by norm_num [dis],
    by norm_num [dis], ?_, ?_, ?_⟩
  · rw [gravityIntegrate_c2Ball, distance_c2BallMoved]
    norm_num [c2BallMoved]
  · rw [gravityIntegrate_c2Ball]
    exact blendedSpeed_c2BallMoved
  · have h : Real.sqrt (c2Ball.x * c2Ball.x + c2Ball.y * c2Ball.y) ≤ 0.95 := by
      rw [Real.sqrt_le_left (by norm_num)]
      unfold c2Ball
      norm_num
    have hr : c2Ball.radius = 0.05 := rfl
    rw [hr]
    linarith
  · unfold speed
    rw [Real.sqrt_le_left (by norm_num)]
    unfold c2Ball
    norm_num
  · exact ⟨rfl, by norm_num [c2Ball], by norm_num [c2Ball]⟩

/-! ### C1 counterexample: duplicates escape the speed clamp -/

/-- A ball on the wall of radius 1, moving outward with speed 3 and with the
momentum accumulator at its cap of 5. -/
def cexBall1 : Ball := ⟨1, 0, 3, 0, 0.05, 0, 0, 0, 5⟩

lemma distance_cexBall1 : distanceFromCenter cexBall1 = 1 := by
  unfold distanceFromCenter cexBall1
  norm_num

lemma clampedPos_cexBall1 : clampedPos 1 cexBall1 = (0.95, 0) := by
  unfold clampedPos
  rw [distance_cexBall1, if_neg one_ne_zero]
  unfold cexBall1
  norm_num

lemma collisionNormal_cexBall1 : collisionNormal 1 cexBall1 = (0.95, 0) := by
  unfold collisionNormal
  rw [distance_cexBall1, clampedPos_cexBall1]
  norm_num

lemma blendedVel_cexBall1 : blendedVel 1 (1 / 2) (1 / 2) cexBall1 = (-1.6825, 0) := by
  unfold blendedVel
  dsimp only
  rw [distance_cexBall1, clampedPos_cexBall1, collisionNormal_cexBall1]
  unfold reflectVel dis cexBall1
  norm_num

lemma blendedSpeed_cexBall1 : blendedSpeed 1 (1 / 2) (1 / 2) cexBall1 = 1.6825 := by
  unfold blendedSpeed
  rw [blendedVel_cexBall1]
  dsimp only
  rw [show (-1.6825 : ℝ) * -1.6825 + 0 * 0 = 1.6825 ^ 2 by norm_num,
    Real.sqrt_sq (by norm_num)]

/-- The collision branch applied to `cexBall1`: velocity renormalized to the
unit vector (-1, 0) and scaled by `1.05 + min (5 + 0.05) 5 = 6.05`. -/
lemma collide_cexBall1 :
    collide 1 (1 / 2) (1 / 2) cexBall1 = ⟨0.95, 0, -6.05, 0, 0.05, 0, 0, 0, 5⟩ := by
  unfold collide
  dsimp only
  rw [clampedPos_cexBall1, blendedVel_cexBall1, blendedSpeed_cexBall1]
  unfold cexBall1
  ext <;> norm_num

lemma gravityIntegrate_cexBall1 : gravityIntegrate (0 * 0.5) cexBall1 = cexBall1 := by
  unfold gravityIntegrate cexBall1
  ext <;> norm_num

lemma processBall_cexBall1 :
    processBall 1 (0 * 0.5) (1 / 2) (1 / 2) cexBall1 = ⟨0.95, 0, -6.05, 0, 0.05, 0, 0, 0, 5⟩ := by
  simp only [processBall]
  rw [gravityIntegrate_cexBall1]
  rw [if_pos (by rw [distance_cexBall1]; norm_num [cexBall1])]
  exact collide_cexBall1

lemma dup_cexBall1 :
    createDuplicateBall (⟨0.95, 0, -6.05, 0, 0.05, 0, 0, 0, 5⟩ : Ball) 0.95 =
      ⟨0.95, 0, -5.7475, 0, 0.05, 0, 0, 0, 1.05⟩ := by
  unfold createDuplicateBall
  ext <;> norm_num

/-- C1 (counterexample): the speed clamp does NOT bound every ball of the
output population — on the singleton input `[cexBall1]` with wall radius 1 and
deltaTime 0, the duplicate queued during the collision (velocity of the
momentum-scaled ball times 0.95) is appended with speed 5.7475 > 2.5: it was
copied before the clamp ran and is never clamped in the step that created
it. -/
theorem C1_duplicate_exceeds_speed_cap_counterexample :
    2.5 < speed ((updateBalls [cexBall1] 1 0 (fun _ => 1 / 2)).1.getD 1 defaultBall) := by
  have hcond : distanceFromCenter (gravityIntegrate (0 * 0.5) cexBall1) +
      (gravityIntegrate (0 * 0.5) cexBall1).radius > 1 := by
    rw [gravityIntegrate_cexBall1, distance_cexBall1]
    norm_num [cexBall1]
  have hdups : dupsList 1 (0 * 0.5) (fun _ => 1 / 2) [cexBall1].length [cexBall1] 0 0 =
      [⟨0.95, 0, -5.7475, 0, 0.05, 0, 0, 0, 1.05⟩] := by
    simp only [dupsList]
    rw [if_pos hcond, if_pos (by simp)]
    rw [processBall_cexBall1, dup_cexBall1, List.map_nil]
    rw [show dupsList 1 (0 * 0.5) (fun _ => 1 / 2) [cexBall1].length [] 2 1 = [] from by
      simp [dupsList]]
  have hgetd : (updateBalls [cexBall1] 1 0 (fun _ => 1 / 2)).1.getD 1 defaultBall =
      ⟨0.95, 0, -5.7475, 0, 0.05, 0, 0, 0, 1.05⟩ := by
    rw [updateBalls_eq]
    dsimp only
    rw [List.getD_append_right _ _ _ 1 (by rw [length_processedList]; simp)]
    rw [length_processedList, hdups]
    simp
  rw [hgetd]
  unfold speed
  dsimp only
  rw [show (-5.7475 : ℝ) * -5.7475 + 0 * 0 = 5.7475 ^ 2 by norm_num,
    Real.sqrt_sq (by norm_num)]
  norm_num

end BrainrotBalls
